import Mathlib

/-!
Verification of the image-to-ANSI rendering pipeline of `pic_to_ansi.py`.

The Python source is shallowly embedded: pure numeric code over float
buffers is modelled with exact real arithmetic (`ℝ`), scalar parameters
parsed from the command line with `ℚ`, byte samples with `ℕ`, and images
as row-major lists of RGB triples.  External collaborators (the PIL
resampling kernels and filters) are abstracted as function parameters of
the embedded pipeline.
-/

namespace PicToAnsi

/-- Pixel color: red, green and blue byte samples. -/
abbrev RGB := ℕ × ℕ × ℕ

/-- Image in display form: row-major rows of RGB byte pixels. -/
abbrev Img := List (List RGB)

/-- Single float channel of an image (rows of linear-light samples). -/
abbrev ChanImg := List (List ℝ)

/-- Float RGB image in linear light, row-major. -/
abbrev LinImg := List (List (ℝ × ℝ × ℝ))

/-- Embeds `srgb_to_linear` from `pic_to_ansi.py`, per byte sample:
divide by 255, then apply the piecewise sRGB decoding curve with
breakpoint 0.04045 and exponent 2.4. -/
noncomputable def srgb_to_linear (c : ℕ) : ℝ :=
  if (c : ℝ) / 255 ≤ 0.04045 then ((c : ℝ) / 255) / 12.92
  else (((c : ℝ) / 255 + 0.055) / 1.055) ^ (2.4 : ℝ)

/-- Embeds `linear_to_srgb` from `pic_to_ansi.py`, per float sample:
piecewise sRGB encoding curve with breakpoint 0.0031308 and exponent
1/2.4, then `np.clip(out * 255.0 + 0.5, 0, 255).astype(np.uint8)`
(scale, add 0.5, clamp to [0,255], truncate). -/
noncomputable def linear_to_srgb (x : ℝ) : ℤ :=
  ⌊min (255 : ℝ) (max 0
    ((if x ≤ 0.0031308 then 12.92 * x
      else 1.055 * x ^ ((1 : ℝ) / 2.4) - 0.055) * 255 + 0.5))⌋

/-- Transcription of the spec's words for `to_linear(c)`: let `c' = c/255`;
if `c' <= 0.04045` the result is `c'/12.92`, else `((c' + 0.055)/1.055)^2.4`. -/
noncomputable def spec_to_linear (c : ℕ) : ℝ :=
  if (c : ℝ) / 255 ≤ 0.04045 then ((c : ℝ) / 255) / 12.92
  else (((c : ℝ) / 255 + 0.055) / 1.055) ^ (2.4 : ℝ)

/-- Transcription of the spec's words for `to_srgb(c)`: if `c <= 0.0031308`
the result is `12.92 * c`, else `1.055 * c^(1/2.4) - 0.055`; then scale by
255, add 0.5, clamp to [0,255], truncate to integer. -/
noncomputable def spec_to_srgb (x : ℝ) : ℤ :=
  ⌊min (255 : ℝ) (max 0
    ((if x ≤ 0.0031308 then 12.92 * x
      else 1.055 * x ^ ((1 : ℝ) / 2.4) - 0.055) * 255 + 0.5))⌋

/-- Model of Python's built-in `round` (round half to even) on an exact
rational value. -/
def pyround (x : ℚ) : ℤ :=
  if x - ⌊x⌋ < 1/2 then ⌊x⌋
  else if (1 : ℚ)/2 < x - ⌊x⌋ then ⌊x⌋ + 1
  else if ⌊x⌋ % 2 = 0 then ⌊x⌋ else ⌊x⌋ + 1

/-- Embeds `height_chars = max(1, int(round(width * aspect_ratio /
cell_aspect)))` with `aspect_ratio = src_h / src_w`
(image_to_verilog_display, lines 183-184). -/
def height_chars (width src_w src_h : ℕ) (cell_aspect : ℚ) : ℤ :=
  max 1 (pyround ((width : ℚ) * ((src_h : ℚ) / (src_w : ℚ)) / cell_aspect))

/-- Embeds the half-block pixel-height computation (lines 186-189):
`h_px = height_chars * 2; if h_px % 2 == 1: h_px += 1`. -/
def h_px_half (hc : ℤ) : ℤ :=
  if hc * 2 % 2 = 1 then hc * 2 + 1 else hc * 2

/-- Embeds the constant `CSI = "\x1b["`. -/
def CSI : String := "\x1b["

/-- Embeds `ansi_fg_bg` from `pic_to_ansi.py`: the half-block cell as the
f-string `pre 38;2;rt;gt;bt m pre 48;2;rb;gb;bb m ch pre 0m`, where `ch` is
the upper or lower half-block glyph and `pre` is `CSI` or a bare bracket. -/
def ansi_fg_bg (top_rgb bot_rgb : RGB) (use_upper use_csi : Bool) : String :=
  (if use_csi then CSI else "[") ++ "38;2;" ++ toString top_rgb.1 ++ ";"
    ++ toString top_rgb.2.1 ++ ";" ++ toString top_rgb.2.2 ++ "m"
    ++ (if use_csi then CSI else "[") ++ "48;2;" ++ toString bot_rgb.1 ++ ";"
    ++ toString bot_rgb.2.1 ++ ";" ++ toString bot_rgb.2.2 ++ "m"
    ++ (if use_upper then "▀" else "▄")
    ++ (if use_csi then CSI else "[") ++ "0m"

/-- Embeds `ansi_single` from `pic_to_ansi.py`: the full-block cell. -/
def ansi_single (rgb : RGB) (char : String) (use_csi : Bool) : String :=
  (if use_csi then CSI else "[") ++ "38;2;" ++ toString rgb.1 ++ ";"
    ++ toString rgb.2.1 ++ ";" ++ toString rgb.2.2 ++ "m"
    ++ char ++ (if use_csi then CSI else "[") ++ "0m"

/-- Set-foreground true-color sequence for one color, per the spec's
description of the output formatter. -/
def fg_seq (use_csi : Bool) (c : RGB) : String :=
  (if use_csi then CSI else "[") ++ "38;2;" ++ toString c.1 ++ ";"
    ++ toString c.2.1 ++ ";" ++ toString c.2.2 ++ "m"

/-- Set-background true-color sequence for one color, per the spec. -/
def bg_seq (use_csi : Bool) (c : RGB) : String :=
  (if use_csi then CSI else "[") ++ "48;2;" ++ toString c.1 ++ ";"
    ++ toString c.2.1 ++ ";" ++ toString c.2.2 ++ "m"

/-- Reset sequence, per the spec. -/
def reset_seq (use_csi : Bool) : String :=
  (if use_csi then CSI else "[") ++ "0m"

/-- Half-block glyph selected by the `use_upper` flag. -/
def half_glyph (use_upper : Bool) : String :=
  if use_upper then "▀" else "▄"

/-- Embeds `enhance_color_separation` from `pic_to_ansi.py`; the two PIL
enhancers (`ImageEnhance.Color`, `ImageEnhance.Contrast`) are external and
appear as function parameters. -/
def enhance_color_separation (colorEnh contrastEnh : ℚ → Img → Img)
    (saturation contrast : ℚ) (pil_img : Img) : Img :=
  let img1 := if saturation ≠ 1 then colorEnh saturation pil_img else pil_img
  if contrast ≠ 1 then contrastEnh contrast img1 else img1

/-- Embeds the pipeline guard at lines 201-202 of `pic_to_ansi.py`:
`if saturation != 1.0 or contrast != 1.0: img = enhance_color_separation(...)`. -/
def color_adjust_stage (colorEnh contrastEnh : ℚ → Img → Img)
    (saturation contrast : ℚ) (img : Img) : Img :=
  if saturation ≠ 1 ∨ contrast ≠ 1 then
    enhance_color_separation colorEnh contrastEnh saturation contrast img
  else img

/-- Model of Python's `str.replace` for a single-character pattern: each
occurrence of `pat` is replaced by `rep`, scanning left to right. -/
def replaceChar (pat : Char) (rep : List Char) : List Char → List Char
  | [] => []
  | c :: rest => (if c = pat then rep else [c]) ++ replaceChar pat rep rest

/-- Embeds `escape_verilog_string` from `pic_to_ansi.py`:
`text.replace("\\", "\\\\").replace('"', '\\"')` — first double every
backslash, then prefix every double quote with a backslash. -/
def escape_verilog_string (text : List Char) : List Char :=
  replaceChar '"' ['\\', '"'] (replaceChar '\\' ['\\', '\\'] text)

/-- Transcription of the spec's wording of the escaping rule as a single
per-character pass: each backslash becomes a double backslash, each double
quote becomes backslash-quote, and every other character is unchanged. -/
def escapeSpecChar (c : Char) : List Char :=
  if c = '\\' then ['\\', '\\'] else if c = '"' then ['\\', '"'] else [c]

/-- Single-pass escaping of a whole line, per the spec's wording. -/
def escapeSpec (text : List Char) : List Char :=
  text.flatMap escapeSpecChar

/-- Reader for the body of a double-quoted string literal: a backslash
escapes the next character, an unescaped double quote (which would
terminate the literal early) or a trailing lone backslash is invalid.
Returns the denoted character sequence when the body is valid. -/
def unescape : List Char → Option (List Char)
  | [] => some []
  | c :: rest =>
    if c = '"' then none
    else if c = '\\' then
      match rest with
      | [] => none
      | d :: rest2 => (unescape rest2).map (fun t => d :: t)
    else (unescape rest).map (fun t => c :: t)

/-- Embeds the control flow of `image_to_verilog_display` (lines 174-273):
the existence check happens before the `try` block, any failure inside the
`try` block is caught only at this top level, and the function reports a
boolean result.  The externally performed work (image decode, pipeline,
output write) is abstracted as an `Except` value; the returned pair is the
printed diagnostics/output and the boolean result. -/
def image_to_verilog_display_result (path_exists : Bool)
    (process : Except String (List String)) : List String × Bool :=
  if path_exists = false then (["Error: image file not found"], false)
  else
    match process with
    | Except.ok lines => (lines, true)
    | Except.error e => (["Error while processing image: " ++ e], false)

/-- Embeds the exit-status mapping of `main`: `sys.exit(0 if ok else 1)`. -/
def exit_code (ok : Bool) : ℕ := if ok then 0 else 1

/-- Embeds `VERILOG_EXTENSIONS = {".sv", ".v", ".svh", ".vh"}`. -/
def VERILOG_EXTENSIONS : List String := [".sv", ".v", ".svh", ".vh"]

/-- Helper for `rfind`: scan the list keeping the index of the last
occurrence seen so far. -/
def lastIdxAux (c : Char) : List Char → ℤ → ℤ → ℤ
  | [], _, acc => acc
  | x :: xs, i, acc => lastIdxAux c xs (i + 1) (if x = c then i else acc)

/-- Model of Python's `str.rfind`: index of the last occurrence of `c`,
or -1 when absent. -/
def rfind (s : List Char) (c : Char) : ℤ := lastIdxAux c s 0 (-1)

/-- Model of `os.path.splitext(p)[1]` (CPython `genericpath._splitext`
with separator `/`): the extension starts at the last dot, provided the
dot lies after the last separator and some character of the basename
before the dot is not itself a dot (so all-dots names have no extension). -/
def splitext_ext (p : List Char) : List Char :=
  let sepIndex := rfind p '/'
  let dotIndex := rfind p '.'
  if sepIndex < dotIndex then
    if ((p.drop (sepIndex + 1).toNat).take (dotIndex - (sepIndex + 1)).toNat).any
        (fun ch => ch != '.') then
      p.drop dotIndex.toNat
    else []
  else []

/-- String-level wrapper of `splitext_ext`. -/
def splitext_ext_str (p : String) : String := ⟨splitext_ext p.data⟩

/-- Model of Python's `str.lower` (character-wise, exact on the ASCII
extensions compared against). -/
def str_lower (s : String) : String := ⟨s.data.map Char.toLower⟩

/-- Embeds `resolve_output_format` from `pic_to_ansi.py`: a non-`auto`
selector is returned unchanged; `auto` with a non-empty output file whose
lower-cased extension is a Verilog extension resolves to `verilog`, and to
`ansi` otherwise (a `None`/empty output file is falsy in the source). -/
def resolve_output_format (output_format output_file : String) : String :=
  if output_format ≠ "auto" then output_format
  else if output_file ≠ "" then
    (if str_lower (splitext_ext_str output_file) ∈ VERILOG_EXTENSIONS then
      "verilog"
    else "ansi")
  else "ansi"

/-- Width of an image in the rows representation (`img.size[0]`). -/
def imgW (img : Img) : ℕ := (img.headD []).length

/-- Height of an image in the rows representation (`img.size[1]`). -/
def imgH (img : Img) : ℕ := img.length

/-- Model of `img.getpixel((x, y))` on the rows representation. -/
def getpixel (img : Img) (x y : ℕ) : RGB := (img.getD y []).getD x (0, 0, 0)

/-- Conversion of a whole byte image to linear light, per channel
(`srgb_to_linear(src)` on the full array). -/
noncomputable def toLinearImg (img : Img) : LinImg :=
  img.map (List.map fun p =>
    (srgb_to_linear p.1, srgb_to_linear p.2.1, srgb_to_linear p.2.2))

/-- First (red) channel plane of a linear image (`lin[:, :, 0]`). -/
def chanR (lin : LinImg) : ChanImg := lin.map (List.map fun p => p.1)

/-- Second (green) channel plane of a linear image (`lin[:, :, 1]`). -/
def chanG (lin : LinImg) : ChanImg := lin.map (List.map fun p => p.2.1)

/-- Third (blue) channel plane of a linear image (`lin[:, :, 2]`). -/
def chanB (lin : LinImg) : ChanImg := lin.map (List.map fun p => p.2.2)

/-- Pointwise ternary zip, used to model `np.stack(chs, axis=2)`. -/
def zip3With {α β γ δ : Type} (f : α → β → γ → δ) :
    List α → List β → List γ → List δ
  | a :: as, b :: bs, c :: cs => f a b c :: zip3With f as bs cs
  | _, _, _ => []

/-- Model of `np.stack([r, g, b], axis=2)`: recombine three channel planes
into an RGB float image. -/
def stack3 (r g b : ChanImg) : LinImg :=
  zip3With (zip3With fun x y z => (x, y, z)) r g b

/-- Conversion of a whole linear float image back to bytes
(`linear_to_srgb(lin_small)` on the full array). -/
noncomputable def toSrgbImg (lin : LinImg) : Img :=
  lin.map (List.map fun p =>
    ((linear_to_srgb p.1).toNat, (linear_to_srgb p.2.1).toNat,
      (linear_to_srgb p.2.2).toNat))

/-- Embeds `resize_with_optimal_filter` from `pic_to_ansi.py`.  The four
PIL resampling kernels (Lanczos and bicubic, on byte images and on float
channel planes) are external and appear as function parameters; the
dispatch on the `method` string, including the fallthrough `else` branch,
is the source's. -/
noncomputable def resize_with_optimal_filter
    (lanczosK bicubicK : Img → ℕ → ℕ → Img)
    (lanczosLinK bicubicLinK : ChanImg → ℕ → ℕ → ChanImg)
    (pil_img : Img) (w h : ℕ) (method : String) : Img :=
  if method = "linear_lanczos" then
    toSrgbImg (stack3 (lanczosLinK (chanR (toLinearImg pil_img)) w h)
      (lanczosLinK (chanG (toLinearImg pil_img)) w h)
      (lanczosLinK (chanB (toLinearImg pil_img)) w h))
  else if method = "linear_bicubic" then
    toSrgbImg (stack3 (bicubicLinK (chanR (toLinearImg pil_img)) w h)
      (bicubicLinK (chanG (toLinearImg pil_img)) w h)
      (bicubicLinK (chanB (toLinearImg pil_img)) w h))
  else if method = "lanczos" then lanczosK pil_img w h
  else if method = "bicubic" then bicubicK pil_img w h
  else lanczosK pil_img w h

/-- Embeds `apply_gentle_denoise`; the PIL median filter is external and
appears as a function parameter receiving the computed window size. -/
def apply_gentle_denoise (medianF : ℕ → Img → Img) (radius : ℕ)
    (pil_img : Img) : Img :=
  if radius ≤ 0 then pil_img else medianF (min 5 (2 * radius + 1)) pil_img

/-- Embeds the unsharp-mask parameter table of `apply_edge_aware_sharpen`,
with the source's fallback to the `light` preset. -/
def sharpen_params (strength : String) : ℚ × ℕ × ℕ :=
  if strength = "light" then (0.7, 80, 3)
  else if strength = "medium" then (1, 110, 2)
  else if strength = "strong" then (1.2, 140, 1)
  else (0.7, 80, 3)

/-- Embeds `apply_edge_aware_sharpen`; the PIL unsharp mask is external
and appears as a function parameter receiving radius, percent and
threshold. -/
def apply_edge_aware_sharpen (unsharpF : ℚ → ℕ → ℕ → Img → Img)
    (strength : String) (pil_img : Img) : Img :=
  if strength = "none" then pil_img
  else unsharpF (sharpen_params strength).1 (sharpen_params strength).2.1
    (sharpen_params strength).2.2 pil_img

/-- Embeds the half-block encoding loop of `image_to_verilog_display`
(lines 212-225): drop a trailing odd row, then for each row pair emit one
line joining the per-column cells. -/
def encodeHalfBlock (img : Img) (upper_half use_csi : Bool) : List String :=
  let w := imgW img
  let h0 := imgH img
  let h := if h0 % 2 = 1 then h0 - 1 else h0
  (List.range (h / 2)).map fun i =>
    String.join ((List.range w).map fun x =>
      ansi_fg_bg (getpixel img x (2 * i)) (getpixel img x (2 * i + 1))
        upper_half use_csi)

/-- Embeds the full-block encoding loop (lines 227-231). -/
def encodeFullBlock (img : Img) (char_full : String) (use_csi : Bool) :
    List String :=
  (List.range (imgH img)).map fun y =>
    String.join ((List.range (imgW img)).map fun x =>
      ansi_single (getpixel img x y) char_full use_csi)

/-- Embeds the rendering pipeline of `image_to_verilog_display` (lines
182-231): dimension computation, resize, the three guarded filter stages
in order, then cell encoding into ANSI lines. -/
noncomputable def image_to_verilog_display_lines
    (lanczosK bicubicK : Img → ℕ → ℕ → Img)
    (lanczosLinK bicubicLinK : ChanImg → ℕ → ℕ → ChanImg)
    (medianF : ℕ → Img → Img)
    (colorEnh contrastEnh : ℚ → Img → Img)
    (unsharpF : ℚ → ℕ → ℕ → Img → Img)
    (src : Img) (width : ℕ)
    (half_block upper_half use_csi : Bool) (char_full : String)
    (resize_method sharpen : String) (denoise : ℕ)
    (saturation contrast : ℚ) (cell_aspect : ℚ) : List String :=
  let hc := (height_chars width (imgW src) (imgH src) cell_aspect).toNat
  let h_px := if half_block then (h_px_half (hc : ℤ)).toNat else hc
  let img0 := resize_with_optimal_filter lanczosK bicubicK lanczosLinK
    bicubicLinK src width h_px resize_method
  let img1 := if 0 < denoise then apply_gentle_denoise medianF denoise img0
    else img0
  let img2 := color_adjust_stage colorEnh contrastEnh saturation contrast img1
  let img3 := if sharpen ≠ "none" then
      apply_edge_aware_sharpen unsharpF sharpen img2
    else img2
  if half_block then encodeHalfBlock img3 upper_half use_csi
  else encodeFullBlock img3 char_full use_csi

/-- The 2×2 solid pure-red source image of the end-to-end scenario. -/
def red2x2 : Img :=
  [[(255, 0, 0), (255, 0, 0)], [(255, 0, 0), (255, 0, 0)]]

/-- Helper: the final clamp-and-truncate step of `linear_to_srgb` maps the
exact value `c + 0.5` back to the integer `c`, for any byte value `c`. -/
lemma floor_clamp (c : ℕ) (hc : c ≤ 255) :
    ⌊min (255 : ℝ) (max 0 ((c : ℝ) + 0.5))⌋ = (c : ℤ) := by
  have hc0 : (0 : ℝ) ≤ (c : ℝ) := Nat.cast_nonneg c
  have hmax : max (0 : ℝ) ((c : ℝ) + 0.5) = (c : ℝ) + 0.5 :=
    max_eq_right (by linarith)
  rw [hmax]
  rcases eq_or_lt_of_le hc with h255 | hlt
  · subst h255
    have hmin : min (255 : ℝ) ((255 : ℕ) + 0.5) = (255 : ℝ) := by
      rw [min_eq_left]
      push_cast
      linarith
    rw [hmin]
    norm_num
  · have hle : (c : ℝ) ≤ 254 := by
      have : c ≤ 254 := Nat.lt_succ_iff.mp hlt
      exact_mod_cast this
    have hmin : min (255 : ℝ) ((c : ℝ) + 0.5) = (c : ℝ) + 0.5 := by
      rw [min_eq_right]
      linarith
    rw [hmin, Int.floor_eq_iff]
    constructor
    · push_cast
      linarith
    · push_cast
      linarith

/-- Helper: for any real `b` at least `(11/255 + 0.055)/1.055`, the value
`b ^ 2.4` exceeds the sRGB encoding breakpoint 0.0031308.  Since the
exponent 2.4 is rational (12/5), the inequality reduces to a comparison
of rational 5th and 12th powers. -/
lemma rpow_gt_breakpoint {b : ℝ} (hb : 0 ≤ b)
    (hb11 : ((11 : ℝ) / 255 + 0.055) / 1.055 ≤ b) :
    (0.0031308 : ℝ) < b ^ (2.4 : ℝ) := by
  have hcpos : (0 : ℝ) < ((11 : ℝ) / 255 + 0.055) / 1.055 := by norm_num
  have hrpow_nonneg : (0 : ℝ) ≤ b ^ (2.4 : ℝ) := Real.rpow_nonneg hb _
  have hmono : (((11 : ℝ) / 255 + 0.055) / 1.055) ^ (2.4 : ℝ) ≤ b ^ (2.4 : ℝ) :=
    Real.rpow_le_rpow hcpos.le hb11 (by norm_num)
  have hpow5 : ((((11 : ℝ) / 255 + 0.055) / 1.055) ^ (2.4 : ℝ)) ^ (5 : ℕ)
      = (((11 : ℝ) / 255 + 0.055) / 1.055) ^ (12 : ℕ) := by
    rw [← Real.rpow_natCast ((((11 : ℝ) / 255 + 0.055) / 1.055) ^ (2.4 : ℝ)) 5,
      ← Real.rpow_mul hcpos.le]
    have h12 : (2.4 : ℝ) * (5 : ℕ) = ((12 : ℕ) : ℝ) := by norm_num
    rw [h12, Real.rpow_natCast]
  have hkey : (0.0031308 : ℝ) ^ (5 : ℕ)
      < ((((11 : ℝ) / 255 + 0.055) / 1.055) ^ (2.4 : ℝ)) ^ (5 : ℕ) := by
    rw [hpow5]
    norm_num
  have hlt : (0.0031308 : ℝ) < (((11 : ℝ) / 255 + 0.055) / 1.055) ^ (2.4 : ℝ) :=
    lt_of_pow_lt_pow_left₀ 5 (Real.rpow_nonneg hcpos.le _) hkey
  linarith

/-- Helper: `replaceChar` distributes over list concatenation. -/
lemma replaceChar_append (pat : Char) (rep : List Char) (xs ys : List Char) :
    replaceChar pat rep (xs ++ ys)
      = replaceChar pat rep xs ++ replaceChar pat rep ys := by
  induction xs with
  | nil => simp [replaceChar]
  | cons c rest ih => simp [replaceChar, ih]

/-- Helper: escaping a line proceeds character by character. -/
lemma escape_cons (c : Char) (rest : List Char) :
    escape_verilog_string (c :: rest)
      = escapeSpecChar c ++ escape_verilog_string rest := by
  have h1 : ¬ (('\\' : Char) = '"') := by decide
  by_cases hbs : c = '\\'
  · subst hbs
    simp [escape_verilog_string, replaceChar, replaceChar_append,
      escapeSpecChar, h1]
  · by_cases hq : c = '"'
    · subst hq
      simp [escape_verilog_string, replaceChar, replaceChar_append,
        escapeSpecChar, hbs]
    · simp [escape_verilog_string, replaceChar, replaceChar_append,
        escapeSpecChar, hbs, hq]

/-- Helper: the two sequential replacements of the source equal the
single-pass escaping map. -/
lemma escape_eq_escapeSpec (text : List Char) :
    escape_verilog_string text = escapeSpec text := by
  induction text with
  | nil => rfl
  | cons c rest ih =>
    rw [escape_cons, ih]
    simp [escapeSpec]

/-- Helper: reading a backslash-escaped pair consumes the escaped
character. -/
lemma unescape_cons_escaped (d : Char) (rest : List Char) :
    unescape ('\\' :: d :: rest) = (unescape rest).map (fun t => d :: t) := by
  have h1 : ¬ (('\\' : Char) = '"') := by decide
  rw [unescape.eq_def]
  simp [if_neg h1]

/-- Helper: reading an ordinary character keeps it. -/
lemma unescape_cons_plain (c : Char) (rest : List Char)
    (hq : ¬ (c = '"')) (hbs : ¬ (c = '\\')) :
    unescape (c :: rest) = (unescape rest).map (fun t => c :: t) := by
  rw [unescape.eq_def]
  simp [if_neg hq, if_neg hbs]

/-- Helper: reading back the single-pass escaped text recovers the original
line, so the escaped text is a valid literal body. -/
lemma unescape_escapeSpec (text : List Char) :
    unescape (escapeSpec text) = some text := by
  induction text with
  | nil => rfl
  | cons c rest ih =>
    have hcons : escapeSpec (c :: rest) = escapeSpecChar c ++ escapeSpec rest := by
      simp [escapeSpec]
    rw [hcons]
    by_cases hbs : c = '\\'
    · subst hbs
      show unescape ('\\' :: '\\' :: escapeSpec rest) = some ('\\' :: rest)
      rw [unescape_cons_escaped, ih]
      rfl
    · by_cases hq : c = '"'
      · subst hq
        show unescape ('\\' :: '"' :: escapeSpec rest) = some ('"' :: rest)
        rw [unescape_cons_escaped, ih]
        rfl
      · have hchar : escapeSpecChar c = [c] := by
          simp [escapeSpecChar, hbs, hq]
        rw [hchar]
        show unescape (c :: escapeSpec rest) = some (c :: rest)
        rw [unescape_cons_plain c _ hq hbs, ih]
        rfl

/-- Helper: converting the byte value 255 to linear light gives exactly 1. -/
lemma srgb_to_linear_255 : srgb_to_linear 255 = 1 := by
  have hb : ((((255 : ℕ) : ℝ)) / 255 + 0.055) / 1.055 = 1 := by norm_num
  rw [srgb_to_linear, if_neg (by norm_num), hb, Real.one_rpow]

/-- Helper: converting the byte value 0 to linear light gives exactly 0. -/
lemma srgb_to_linear_0 : srgb_to_linear 0 = 0 := by
  rw [srgb_to_linear, if_pos (by norm_num)]
  norm_num

/-- Helper: converting the linear value 1 back to sRGB gives byte 255. -/
lemma linear_to_srgb_one : linear_to_srgb 1 = 255 := by
  rw [linear_to_srgb, if_neg (by norm_num), Real.one_rpow]
  have h1 : (1.055 * 1 - 0.055) * 255 + 0.5 = (255.5 : ℝ) := by norm_num
  rw [h1]
  have h2 : max (0 : ℝ) 255.5 = 255.5 := max_eq_right (by norm_num)
  have h3 : min (255 : ℝ) 255.5 = 255 := min_eq_left (by norm_num)
  rw [h2, h3]
  norm_num

/-- Helper: converting the linear value 0 back to sRGB gives byte 0. -/
lemma linear_to_srgb_zero : linear_to_srgb 0 = 0 := by
  rw [linear_to_srgb, if_pos (by norm_num)]
  have h1 : 12.92 * 0 * 255 + 0.5 = (0.5 : ℝ) := by norm_num
  rw [h1]
  have h2 : max (0 : ℝ) 0.5 = 0.5 := max_eq_right (by norm_num)
  have h3 : min (255 : ℝ) 0.5 = 0.5 := min_eq_right (by norm_num)
  rw [h2, h3]
  norm_num

/-- Helper: joining two cell strings concatenates them. -/
lemma join_pair (a b : String) : String.join [a, b] = a ++ b := by
  simp [String.join]

/-- Helper: full evaluation of the rendering pipeline on the 2×2 red image
at width 2, half-block mode, CSI on, default resize method and all optional
filters off, for any channel kernels that preserve the two constant 2×2
channel planes: the output is one line of two red-on-red cells. -/
lemma c9_pipeline_output
    (lanczosK bicubicK : Img → ℕ → ℕ → Img)
    (lanczosLinK bicubicLinK : ChanImg → ℕ → ℕ → ChanImg)
    (medianF : ℕ → Img → Img) (colorEnh contrastEnh : ℚ → Img → Img)
    (unsharpF : ℚ → ℕ → ℕ → Img → Img)
    (hk1 : bicubicLinK [[1, 1], [1, 1]] 2 2 = [[1, 1], [1, 1]])
    (hk0 : bicubicLinK [[0, 0], [0, 0]] 2 2 = [[0, 0], [0, 0]]) :
    image_to_verilog_display_lines lanczosK bicubicK lanczosLinK bicubicLinK
      medianF colorEnh contrastEnh unsharpF red2x2 2 true true true "█"
      "linear_bicubic" "none" 0 1 1 2
      = [ansi_fg_bg (255, 0, 0) (255, 0, 0) true true
          ++ ansi_fg_bg (255, 0, 0) (255, 0, 0) true true] := by
  have hhc : (height_chars 2 (imgW red2x2) (imgH red2x2) 2).toNat = 1 := by
    have hw2 : imgW red2x2 = 2 := rfl
    have hh2 : imgH red2x2 = 2 := rfl
    have harg : ((2 : ℚ) * ((2 : ℚ) / (2 : ℚ)) / 2) = 1 := by norm_num
    rw [hw2, hh2, height_chars]
    push_cast
    rw [harg]
    have hfl : ⌊(1 : ℚ)⌋ = 1 := by norm_num
    rw [pyround, hfl]
    norm_num
  have hr1 : List.range 1 = [0] := by decide
  have hr2 : List.range 2 = [0, 1] := by decide
  simp only [image_to_verilog_display_lines, hhc]
  have hpx : (h_px_half (((1 : ℕ) : ℤ))).toNat = 2 := by decide
  simp only [hpx, if_true]
  simp only [resize_with_optimal_filter, toLinearImg, red2x2, List.map_cons,
    List.map_nil, srgb_to_linear_255, srgb_to_linear_0, chanR, chanG, chanB]
  simp only [show ¬ (("linear_bicubic" : String) = "linear_lanczos") from by decide,
    if_false, if_pos rfl, ite_false, ite_true, if_neg, reduceIte]
  simp only [hk1, hk0, stack3, zip3With, toSrgbImg, List.map_cons, List.map_nil,
    linear_to_srgb_one, linear_to_srgb_zero, Int.toNat_ofNat, Int.toNat_zero]
  simp [color_adjust_stage, enhance_color_separation, encodeHalfBlock,
    imgW, imgH, getpixel, hr1, hr2, join_pair]

/-- C1: for every byte value `c` in 0..255, converting to linear light and
back (`linear_to_srgb (srgb_to_linear c)`) reproduces `c` exactly under the
defined rounding rule (scale by 255, add 0.5, clamp to [0,255], truncate). -/
theorem C1_srgb_linear_roundtrip (c : ℕ) (hc : c ≤ 255) :
    linear_to_srgb (srgb_to_linear c) = (c : ℤ) := by
  have hc0 : (0 : ℝ) ≤ (c : ℝ) := Nat.cast_nonneg c
  have hcR : (c : ℝ) ≤ 255 := by exact_mod_cast hc
  by_cases h : c ≤ 10
  · -- low branch: both conversions use the linear segment
    have hR : (c : ℝ) ≤ 10 := by exact_mod_cast h
    have hbr : (c : ℝ) / 255 ≤ 0.04045 := by linarith
    have e1 : srgb_to_linear c = ((c : ℝ) / 255) / 12.92 := by
      rw [srgb_to_linear, if_pos hbr]
    have hbr2 : ((c : ℝ) / 255) / 12.92 ≤ 0.0031308 := by
      rw [div_div, div_le_iff₀ (by norm_num : (0 : ℝ) < 255 * 12.92)]
      linarith
    have e2 : 12.92 * (((c : ℝ) / 255) / 12.92) * 255 + 0.5 = (c : ℝ) + 0.5 := by
      ring
    rw [e1, linear_to_srgb, if_pos hbr2, e2]
    exact floor_clamp c hc
  · -- high branch: both conversions use the power segment
    push_neg at h
    have hR : (11 : ℝ) ≤ (c : ℝ) := by exact_mod_cast h
    have hbr : ¬ ((c : ℝ) / 255 ≤ 0.04045) := by
      push_neg
      linarith
    have e1 : srgb_to_linear c = (((c : ℝ) / 255 + 0.055) / 1.055) ^ (2.4 : ℝ) := by
      rw [srgb_to_linear, if_neg hbr]
    have hb0 : (0 : ℝ) ≤ ((c : ℝ) / 255 + 0.055) / 1.055 := by positivity
    have hb11 : ((11 : ℝ) / 255 + 0.055) / 1.055 ≤ ((c : ℝ) / 255 + 0.055) / 1.055 := by
      rw [div_le_div_iff_of_pos_right (by norm_num : (0 : ℝ) < 1.055)]
      have h255 : (11 : ℝ) / 255 ≤ (c : ℝ) / 255 := by
        rw [div_le_div_iff_of_pos_right (by norm_num : (0 : ℝ) < 255)]
        exact hR
      linarith
    have hkey : ¬ ((((c : ℝ) / 255 + 0.055) / 1.055) ^ (2.4 : ℝ) ≤ 0.0031308) := by
      push_neg
      exact rpow_gt_breakpoint hb0 hb11
    have hback : ((((c : ℝ) / 255 + 0.055) / 1.055) ^ (2.4 : ℝ)) ^ ((1 : ℝ) / 2.4)
        = ((c : ℝ) / 255 + 0.055) / 1.055 := by
      rw [← Real.rpow_mul hb0]
      have hone : (2.4 : ℝ) * (1 / 2.4) = 1 := by norm_num
      rw [hone, Real.rpow_one]
    have e2 : (1.055 * (((((c : ℝ) / 255 + 0.055) / 1.055) ^ (2.4 : ℝ)) ^ ((1 : ℝ) / 2.4))
        - 0.055) * 255 + 0.5 = (c : ℝ) + 0.5 := by
      rw [hback]
      ring
    rw [e1, linear_to_srgb, if_neg hkey, e2]
    exact floor_clamp c hc

/-- Witness for C1 at the concrete byte value 128. -/
theorem C1_srgb_linear_roundtrip_witness :
    (128 : ℕ) ≤ 255 ∧ linear_to_srgb (srgb_to_linear 128) = (128 : ℤ) :=
  ⟨by norm_num, C1_srgb_linear_roundtrip 128 (by norm_num)⟩

/-- C2: `srgb_to_linear` and `linear_to_srgb` compute exactly the
IEC 61966-2-1 piecewise transfer functions as stated in the spec, for every
byte input and every real input respectively. -/
theorem C2_transfer_functions_match_spec :
    (∀ c : ℕ, srgb_to_linear c = spec_to_linear c) ∧
    (∀ x : ℝ, linear_to_srgb x = spec_to_srgb x) :=
  ⟨fun _ => rfl, fun _ => rfl⟩

/-- C3: for positive source dimensions, width and cell aspect, the target
character height is `round(width * (src_h/src_w) / cell_aspect)` with a
minimum of 1, and the half-block pixel height is exactly twice the character
height, hence even and at least 2. -/
theorem C3_halfblock_height_even (width src_w src_h : ℕ) (cell_aspect : ℚ)
    (hw : 0 < width) (hsw : 0 < src_w) (hsh : 0 < src_h) (hca : 0 < cell_aspect) :
    height_chars width src_w src_h cell_aspect
        = max 1 (pyround ((width : ℚ) * ((src_h : ℚ) / (src_w : ℚ)) / cell_aspect)) ∧
    h_px_half (height_chars width src_w src_h cell_aspect)
        = 2 * height_chars width src_w src_h cell_aspect ∧
    Even (h_px_half (height_chars width src_w src_h cell_aspect)) ∧
    2 ≤ h_px_half (height_chars width src_w src_h cell_aspect) := by
  have h1 : (1 : ℤ) ≤ height_chars width src_w src_h cell_aspect :=
    le_max_left 1 _
  have heq : h_px_half (height_chars width src_w src_h cell_aspect)
      = 2 * height_chars width src_w src_h cell_aspect := by
    rw [h_px_half, if_neg (by omega)]
    ring
  refine ⟨rfl, heq, ?_, ?_⟩
  · rw [heq]
    exact even_two_mul _
  · rw [heq]
    omega

/-- Witness for C3 at width 2, a 2×2 source and cell aspect 2. -/
theorem C3_halfblock_height_even_witness :
    0 < 2 ∧ (0 : ℚ) < 2 ∧
    h_px_half (height_chars 2 2 2 2) = 2 * height_chars 2 2 2 2 ∧
    Even (h_px_half (height_chars 2 2 2 2)) ∧
    2 ≤ h_px_half (height_chars 2 2 2 2) :=
  ⟨by norm_num, by norm_num,
    (C3_halfblock_height_even 2 2 2 2 (by norm_num) (by norm_num) (by norm_num)
      (by norm_num)).2⟩

/-- C4: for every top and bottom color and both glyph choices, the cell is
foreground sequence of the top pixel, background sequence of the bottom
pixel, the glyph, then reset — the color assignment does not depend on the
glyph choice; and the concrete cell for top=(255,0,0), bottom=(0,0,255),
CSI enabled, upper glyph is the exact escape string from the spec. -/
theorem C4_halfblock_cell_format :
    (∀ (top bot : RGB) (use_upper use_csi : Bool),
      ansi_fg_bg top bot use_upper use_csi
        = fg_seq use_csi top ++ (bg_seq use_csi bot
            ++ (half_glyph use_upper ++ reset_seq use_csi))) ∧
    ansi_fg_bg (255, 0, 0) (0, 0, 255) true true
      = "\x1b[38;2;255;0;0m\x1b[48;2;0;0;255m▀\x1b[0m" := by
  constructor
  · intro top bot use_upper use_csi
    simp [ansi_fg_bg, fg_seq, bg_seq, reset_seq, half_glyph, String.append_assoc]
  · rfl

/-- C5: with saturation 1.0 and contrast 1.0 the saturation/contrast stage
is skipped outright, so whatever the (arbitrary, possibly non-identity)
enhancement operators do, the buffer after the stage is the input buffer
itself; the same holds inside `enhance_color_separation`. -/
theorem C5_noop_color_stage_skipped
    (colorEnh contrastEnh : ℚ → Img → Img) (img : Img) :
    color_adjust_stage colorEnh contrastEnh 1 1 img = img ∧
    enhance_color_separation colorEnh contrastEnh 1 1 img = img := by
  constructor
  · simp [color_adjust_stage]
  · simp [enhance_color_separation]

/-- C6: for every rendered line, the display-statement escaping replaces
each backslash by a double backslash and each double quote by
backslash-quote and changes nothing else (it equals the single-pass
per-character map), and the escaped text reads back as a valid string
literal body denoting the original line. -/
theorem C6_escaping_correct (text : List Char) :
    escape_verilog_string text = escapeSpec text ∧
    unescape (escape_verilog_string text) = some text := by
  refine ⟨escape_eq_escapeSpec text, ?_⟩
  rw [escape_eq_escapeSpec text]
  exact unescape_escapeSpec text

/-- C7: a missing input path yields failure with only the not-found report,
independently of whatever the processing stage would have done; a failure
inside processing is converted at the top level to a boolean failure whose
only output is the error report (no partial pipeline output); success
returns the pipeline output with a true result; and the process exit status
is 0 on success and 1 on failure. -/
theorem C7_error_handling (process : Except String (List String))
    (e : String) (lines : List String) :
    image_to_verilog_display_result false process
        = (["Error: image file not found"], false) ∧
    image_to_verilog_display_result true (Except.error e)
        = (["Error while processing image: " ++ e], false) ∧
    image_to_verilog_display_result true (Except.ok lines) = (lines, true) ∧
    exit_code true = 0 ∧ exit_code false = 1 := by
  refine ⟨?_, rfl, rfl, rfl, rfl⟩
  simp [image_to_verilog_display_result]

/-- C8: a selector other than `auto` is returned unchanged; the `auto`
selector resolves to `verilog` exactly when the output file's lower-cased
extension is one of `.sv`, `.v`, `.svh`, `.vh`, and to `ansi` otherwise,
including when no output file is given. -/
theorem C8_output_format_resolution (fmt file : String) :
    (fmt ≠ "auto" → resolve_output_format fmt file = fmt) ∧
    (resolve_output_format "auto" file = "verilog"
      ↔ str_lower (splitext_ext_str file) ∈ VERILOG_EXTENSIONS) ∧
    resolve_output_format "auto" "" = "ansi" := by
  refine ⟨?_, ?_, by decide⟩
  · intro h
    simp [resolve_output_format, h]
  · by_cases hfile : file = ""
    · subst hfile
      constructor
      · intro h
        exact absurd h (by decide)
      · intro h
        exact absurd h (by decide)
    · by_cases hm : str_lower (splitext_ext_str file) ∈ VERILOG_EXTENSIONS
      · simp [resolve_output_format, hfile, hm]
      · simp [resolve_output_format, hfile, hm]

/-- Witness for C8 at a concrete non-`auto` selector. -/
theorem C8_output_format_resolution_witness :
    ("ansi" : String) ≠ "auto" ∧ resolve_output_format "ansi" "pic.sv" = "ansi" :=
  ⟨by decide, (C8_output_format_resolution "ansi" "pic.sv").1 (by decide)⟩

/-- C9 (amended): the 2×2 solid-red source at requested width 2, half-block
mode, all optional filters disabled and constant-preserving resampling
kernels yields exactly one output line, and that line holds two cells (one
per column), each with top and bottom pure red — not one cell as the claim
states, since the resized image is two pixels wide. -/
theorem C9_one_line_two_red_cells
    (lanczosK bicubicK : Img → ℕ → ℕ → Img)
    (lanczosLinK bicubicLinK : ChanImg → ℕ → ℕ → ChanImg)
    (medianF : ℕ → Img → Img) (colorEnh contrastEnh : ℚ → Img → Img)
    (unsharpF : ℚ → ℕ → ℕ → Img → Img)
    (hk1 : bicubicLinK [[1, 1], [1, 1]] 2 2 = [[1, 1], [1, 1]])
    (hk0 : bicubicLinK [[0, 0], [0, 0]] 2 2 = [[0, 0], [0, 0]]) :
    image_to_verilog_display_lines lanczosK bicubicK lanczosLinK bicubicLinK
      medianF colorEnh contrastEnh unsharpF red2x2 2 true true true "█"
      "linear_bicubic" "none" 0 1 1 2
      = [ansi_fg_bg (255, 0, 0) (255, 0, 0) true true
          ++ ansi_fg_bg (255, 0, 0) (255, 0, 0) true true] :=
  c9_pipeline_output lanczosK bicubicK lanczosLinK bicubicLinK medianF
    colorEnh contrastEnh unsharpF hk1 hk0

/-- Witness for C9 with concrete identity resampling kernels and filters. -/
theorem C9_one_line_two_red_cells_witness :
    (fun (c : ChanImg) (_ _ : ℕ) => c) [[1, 1], [1, 1]] 2 2 = [[1, 1], [1, 1]] ∧
    (fun (c : ChanImg) (_ _ : ℕ) => c) [[0, 0], [0, 0]] 2 2 = [[0, 0], [0, 0]] ∧
    image_to_verilog_display_lines (fun i _ _ => i) (fun i _ _ => i)
      (fun c _ _ => c) (fun c _ _ => c) (fun _ i => i) (fun _ i => i)
      (fun _ i => i) (fun _ _ _ i => i) red2x2 2 true true true "█"
      "linear_bicubic" "none" 0 1 1 2
      = [ansi_fg_bg (255, 0, 0) (255, 0, 0) true true
          ++ ansi_fg_bg (255, 0, 0) (255, 0, 0) true true] :=
  ⟨rfl, rfl,
    C9_one_line_two_red_cells (fun i _ _ => i) (fun i _ _ => i)
      (fun c _ _ => c) (fun c _ _ => c) (fun _ i => i) (fun _ i => i)
      (fun _ i => i) (fun _ _ _ i => i) rfl rfl⟩

/-- Counterexample to C9 as stated: with concrete identity kernels/filters,
the single output line is not a single red-on-red cell (it holds two). -/
theorem C9_one_cell_counterexample :
    ¬ (image_to_verilog_display_lines (fun i _ _ => i) (fun i _ _ => i)
        (fun c _ _ => c) (fun c _ _ => c) (fun _ i => i) (fun _ i => i)
        (fun _ i => i) (fun _ _ _ i => i) red2x2 2 true true true "█"
        "linear_bicubic" "none" 0 1 1 2
        = [ansi_fg_bg (255, 0, 0) (255, 0, 0) true true]) := by
  rw [c9_pipeline_output (fun i _ _ => i) (fun i _ _ => i)
    (fun c _ _ => c) (fun c _ _ => c) (fun _ i => i) (fun _ i => i)
    (fun _ i => i) (fun _ _ _ i => i) rfl rfl]
  decide

/-- C10: for any method string outside the four documented modes, the
resize does not fail but falls through to a resize of the byte (gamma
space) image with the Lanczos kernel, identical to method `lanczos`. -/
theorem C10_unknown_method_is_gamma_lanczos
    (lanczosK bicubicK : Img → ℕ → ℕ → Img)
    (lanczosLinK bicubicLinK : ChanImg → ℕ → ℕ → ChanImg)
    (pil_img : Img) (w h : ℕ) (method : String)
    (hm : method ∉ ["linear_lanczos", "linear_bicubic", "lanczos", "bicubic"]) :
    resize_with_optimal_filter lanczosK bicubicK lanczosLinK bicubicLinK
        pil_img w h method = lanczosK pil_img w h ∧
    resize_with_optimal_filter lanczosK bicubicK lanczosLinK bicubicLinK
        pil_img w h method
      = resize_with_optimal_filter lanczosK bicubicK lanczosLinK bicubicLinK
          pil_img w h "lanczos" := by
  simp only [List.mem_cons, List.not_mem_nil, or_false, not_or] at hm
  obtain ⟨h1, h2, h3, h4⟩ := hm
  have e1 : resize_with_optimal_filter lanczosK bicubicK lanczosLinK bicubicLinK
      pil_img w h method = lanczosK pil_img w h := by
    rw [resize_with_optimal_filter, if_neg h1, if_neg h2, if_neg h3, if_neg h4]
  have e2 : resize_with_optimal_filter lanczosK bicubicK lanczosLinK bicubicLinK
      pil_img w h "lanczos" = lanczosK pil_img w h := by
    rw [resize_with_optimal_filter,
      if_neg (show ¬ (("lanczos" : String) = "linear_lanczos") by decide),
      if_neg (show ¬ (("lanczos" : String) = "linear_bicubic") by decide),
      if_pos rfl]
  exact ⟨e1, e1.trans e2.symm⟩

/-- Witness for C10 at the concrete unknown method string `nearest` with
concrete (identity) kernels. -/
theorem C10_unknown_method_is_gamma_lanczos_witness :
    ("nearest" : String) ∉ ["linear_lanczos", "linear_bicubic", "lanczos", "bicubic"] ∧
    resize_with_optimal_filter (fun i _ _ => i) (fun i _ _ => i)
        (fun c _ _ => c) (fun c _ _ => c) [[(1, 2, 3)]] 4 5 "nearest"
      = (fun (i : Img) (_ _ : ℕ) => i) [[(1, 2, 3)]] 4 5 :=
  ⟨by decide,
    (C10_unknown_method_is_gamma_lanczos (fun i _ _ => i) (fun i _ _ => i)
      (fun c _ _ => c) (fun c _ _ => c) [[(1, 2, 3)]] 4 5 "nearest"
      (by decide)).1⟩

end PicToAnsi
